import Mathlib

/-!
Verification of the sampling and power-computation pipeline of the
`piimage` power monitor.

The repository contains two near-identical monitoring scripts:
 * `backups/pi_monitor_script.py` — the six-channel monitor (constants
   `CT_RATING = 30`, guard `len < 100`, `max(0, ·)` under the square root,
   `try/except` around the SPI transfer, millisecond `Z` timestamps);
 * `scripts/pi_monitor_script.py` — the single-channel, CT-only monitor
   (`volts_per_amp = 0.9 / 100` hard-coded, only the empty-list guard, no
   `max(0, ·)`, no `try/except` in `read_adc`, `isoformat()` timestamps).

Definitions named after the six-channel script carry the plain source
names (`read_adc`, `calculate_power_for_ct`, ...); the single-channel
variant's definitions are prefixed with `scripts_`.

Modelling conventions:
 * Python `float` arithmetic is modelled exactly: intermediate rational
   quantities over `ℚ`, and values downstream of `math.sqrt` over `ℝ`
   with `Real.sqrt`;
 * Python `int` is `ℤ` (sample codes, sums of squares);
 * the SPI transfer `spi.xfer2([1, (8 + channel) << 4, 0])` is an oracle
   returning three hardware bytes (`Fin 256`), or `none` when the
   transfer layer raises;
 * Python `str` results are `List Char`;
 * fallible Python code is `Option` / `Except`.
-/

set_option maxHeartbeats 1000000

/-! ### Configuration constants (backups/pi_monitor_script.py lines 13-36) -/

def GRID_VOLTAGE : ℚ := 120.0

def CT_RATING : ℕ := 30

def CT_CALIBRATION : ℚ := 1.0

def CT_REVERSED : Bool := true

def DEFAULT_CALIBRATION : ℚ := 0.88

def ADC_BITS : ℚ := 1024

def NUM_SAMPLES : ℕ := 500

/-- CT slot to ADC channel mapping (line 22). -/
def CT_CHANNELS : List (ℕ × ℤ) := [(1, 0), (2, 1), (3, 2), (4, 3), (5, 4), (6, 5)]

/-- `scripts/pi_monitor_script.py` line 18: the single monitored channel. -/
def CT_CHANNEL : ℤ := 0

/-! ### Power calculator: shared numeric core
(backups lines 141-172; scripts lines 89-113 — textually identical
except for `volts_per_amp` and the `max(0, ·)` guard) -/

/-- Board voltage reference, line 144: `board_voltage = 3.31`. -/
def board_voltage : ℚ := 3.31

/-- Line 145: `vref = board_voltage / ADC_BITS`. -/
def vref : ℚ := board_voltage / ADC_BITS

/-- Lines 148-157: CT scaling chain on `CT_RATING` (which is 30). -/
def volts_per_amp : ℚ :=
if CT_RATING = 30 then 1 / 30
else if CT_RATING = 50 then 1 / 50
else if CT_RATING = 100 then 0.9 / 100
else if CT_RATING = 200 then 1 / 200
else 1 / (CT_RATING : ℚ)

/-- Line 159: `current_scaling = (vref * CT_CALIBRATION * DEFAULT_CALIBRATION) / volts_per_amp`. -/
def current_scaling : ℚ := vref * CT_CALIBRATION * DEFAULT_CALIBRATION / volts_per_amp

/-- Scripts line 97: `volts_per_amp = 0.9 / 100` (hard-coded SCT-T16 value). -/
def scripts_volts_per_amp : ℚ := 0.9 / 100

/-- Scripts line 98. -/
def scripts_current_scaling : ℚ :=
vref * CT_CALIBRATION * DEFAULT_CALIBRATION / scripts_volts_per_amp

/-- Lines 162-167: `sum_squares += sample * sample` over the loop (exact Python `int`). -/
def sum_squares (current_samples : List ℤ) : ℤ :=
(current_samples.map fun sample => sample * sample).sum

/-- Lines 162-167: `sum_values += sample` over the loop. -/
def sum_values (current_samples : List ℤ) : ℤ := current_samples.sum

/-- Line 170: `avg_raw = sum_values / num_samples` (Python true division). -/
def avg_raw (current_samples : List ℤ) : ℚ :=
(sum_values current_samples : ℚ) / (current_samples.length : ℚ)

/-- Line 171: `mean_square = sum_squares / num_samples`. -/
def mean_square (current_samples : List ℤ) : ℚ :=
(sum_squares current_samples : ℚ) / (current_samples.length : ℚ)

/-- Line 179: `power_factor = 0.90`. -/
def power_factor : ℚ := 0.90

/-- Line 172:
`current_rms = math.sqrt(max(0, mean_square - (avg_raw * avg_raw))) * current_scaling`. -/
noncomputable def current_rms (current_samples : List ℤ) : ℝ :=
Real.sqrt
    ((max 0 (mean_square current_samples - avg_raw current_samples * avg_raw current_samples) :
      ℚ)) *
  ((current_scaling : ℚ) : ℝ)

/-- Scripts line 113: `current_rms = math.sqrt(mean_square - (avg_raw * avg_raw)) * current_scaling`
— note: no `max(0, ·)` guard in this variant. -/
noncomputable def scripts_current_rms (current_samples : List ℤ) : ℝ :=
Real.sqrt
    ((mean_square current_samples - avg_raw current_samples * avg_raw current_samples : ℚ)) *
  ((scripts_current_scaling : ℚ) : ℝ)

/-! ### Channel reader (backups lines 105-114, scripts lines 57-63) -/

/-- Three bytes returned by one `spi.xfer2([1, (8 + channel) << 4, 0])` transaction. -/
abbrev Byte3 : Type := Fin 256 × Fin 256 × Fin 256

/-- Backups `read_adc`: the transfer oracle `resp` is `some` bytes on a successful
transaction and `none` when `spi.xfer2` raises (caught by the `try/except`, line 113).
`data = ((adc[1] & 3) << 8) + adc[2]`. -/
def read_adc (resp : Option Byte3) (channel : ℤ) : ℤ :=
if channel < 0 ∨ 7 < channel then -1
else
  match resp with
  | some adc => (((adc.2.1.val &&& 3) <<< 8 + adc.2.2.val : ℕ) : ℤ)
  | none => -1

/-- Scripts `read_adc`: same decode, but no `try/except` — a failed transfer
propagates as an exception (`Except.error`). -/
def scripts_read_adc (resp : Option Byte3) (channel : ℤ) : Except Unit ℤ :=
if channel < 0 ∨ 7 < channel then Except.ok (-1)
else
  match resp with
  | some adc => Except.ok (((adc.2.1.val &&& 3) <<< 8 + adc.2.2.val : ℕ) : ℤ)
  | none => Except.error ()

/-! ### Synchronized sampler (backups lines 116-133, scripts lines 65-81)

The backups loop builds `ct_samples[ct_num]` by appending `read_adc(channel)`
only when the reading is `>= 0`; each channel's dict entry depends only on the
reads of that channel, so we model the per-channel sequence directly, with the
transfer oracle indexed by the slot number. Pacing sleeps do not affect the
collected data and are not modelled. -/

def collect_ct_samples (resp : ℕ → Option Byte3) (channel : ℤ) (num_samples : ℕ) : List ℤ :=
(List.range num_samples).foldl
  (fun ct_list i =>
    let ct_reading := read_adc (resp i) channel
    if 0 ≤ ct_reading then ct_list ++ [ct_reading] else ct_list)
  []

/-- Backups `collect_all_ct_samples`, as the per-CT projection of the
interleaved loop: `resp i ct` is the transfer outcome for `ct` in slot `i`. -/
def collect_all_ct_samples (resp : ℕ → ℕ → Option Byte3) (num_samples : ℕ) (ct_num : ℕ) :
    List ℤ :=
collect_ct_samples (fun i => resp i ct_num) ((CT_CHANNELS.lookup ct_num).getD (-1)) num_samples

/-- Scripts `collect_current_samples` loop body: appends every `read_adc` result
unconditionally; an exception from `read_adc` aborts the whole pass. -/
def scripts_collect_loop (resp : ℕ → Option Byte3) :
    List ℕ → List ℤ → Except Unit (List ℤ)
| [], acc => Except.ok acc
| i :: rest, acc =>
  match scripts_read_adc (resp i) CT_CHANNEL with
  | Except.ok ct_reading => scripts_collect_loop resp rest (acc ++ [ct_reading])
  | Except.error e => Except.error e

def scripts_collect_current_samples (resp : ℕ → Option Byte3) (num_samples : ℕ) :
    Except Unit (List ℤ) :=
scripts_collect_loop resp (List.range num_samples) []

/-! ### Power calculator: polarity correction, noise floor, reporting
(backups lines 175-206, scripts lines 116-154) -/

/-- Line 175: `variation = max(current_samples) - min(current_samples)`
(only reached on non-empty input; the `getD 0` default is never used there). -/
def variation (current_samples : List ℤ) : ℤ :=
(current_samples.maximum.unbot' 0) - (current_samples.minimum.untop' 0)

/-- Line 180: `power_calculated = voltage_fixed * abs(current_rms) * power_factor`. -/
noncomputable def power_calculated (current_samples : List ℤ) : ℝ :=
((GRID_VOLTAGE : ℚ) : ℝ) * |current_rms current_samples| * ((power_factor : ℚ) : ℝ)

/-- Scripts line 125 (same formula, scripts scaling). -/
noncomputable def scripts_power_calculated (current_samples : List ℤ) : ℝ :=
((GRID_VOLTAGE : ℚ) : ℝ) * |scripts_current_rms current_samples| * ((power_factor : ℚ) : ℝ)

/-- Lines 182-190 (identical in both files): the CT-reversal block on the pair
`(final_power, final_current)` initialised to `(power_calculated, current_rms)`. -/
noncomputable def ct_reversal (ct_reversed : Bool) (power current : ℝ) : ℝ × ℝ :=
if ct_reversed then
  if power < 0 then (|power|, current)
  else (power, -|current|)
else (power, current)

noncomputable def final_pair (current_samples : List ℤ) : ℝ × ℝ :=
ct_reversal CT_REVERSED (power_calculated current_samples) (current_rms current_samples)

/-- Lines 192-194: the 1 W noise floor applied to `final_power`. -/
noncomputable def final_power (current_samples : List ℤ) : ℝ :=
if |(final_pair current_samples).1| < 1.0 then 0.0 else (final_pair current_samples).1

noncomputable def final_current (current_samples : List ℤ) : ℝ :=
(final_pair current_samples).2

/-- Line 197: `apparent = voltage_fixed * abs(final_current)`. -/
noncomputable def apparent (current_samples : List ℤ) : ℝ :=
((GRID_VOLTAGE : ℚ) : ℝ) * |final_current current_samples|

/-- Line 198: `pf = power_factor if apparent > 0.1 else 0.0`. -/
noncomputable def pf (current_samples : List ℤ) : ℝ :=
if 0.1 < apparent current_samples then ((power_factor : ℚ) : ℝ) else 0.0

/-- The dict returned by `calculate_power_for_ct` (lines 200-206). -/
structure Reading where
  power : ℝ
  current : ℝ
  voltage : ℝ
  pf : ℝ
  variation : ℤ

/-- Backups `calculate_power_for_ct` (lines 135-206).  Guard (line 138):
`if not current_samples or len(current_samples) < 100: return None`. -/
noncomputable def calculate_power_for_ct (current_samples : List ℤ) (ct_num : ℕ) :
    Option Reading :=
if current_samples = [] ∨ current_samples.length < 100 then none
else
  some
    { power := |final_power current_samples|
      current := |final_current current_samples|
      voltage := ((GRID_VOLTAGE : ℚ) : ℝ)
      pf := pf current_samples
      variation := variation current_samples }

/-- Scripts `final_*` chain (lines 129-145), built on the scripts scaling. -/
noncomputable def scripts_final_pair (current_samples : List ℤ) : ℝ × ℝ :=
ct_reversal CT_REVERSED (scripts_power_calculated current_samples)
  (scripts_current_rms current_samples)

noncomputable def scripts_final_power (current_samples : List ℤ) : ℝ :=
if |(scripts_final_pair current_samples).1| < 1.0 then 0.0
else (scripts_final_pair current_samples).1

noncomputable def scripts_final_current (current_samples : List ℤ) : ℝ :=
(scripts_final_pair current_samples).2

noncomputable def scripts_apparent (current_samples : List ℤ) : ℝ :=
((GRID_VOLTAGE : ℚ) : ℝ) * |scripts_final_current current_samples|

noncomputable def scripts_pf (current_samples : List ℤ) : ℝ :=
if 0.1 < scripts_apparent current_samples then ((power_factor : ℚ) : ℝ) else 0.0

/-- The dict returned by `calculate_power_from_current` (scripts lines 149-154);
this variant has no `variation` field. -/
structure ScriptsReading where
  power : ℝ
  current : ℝ
  voltage : ℝ
  pf : ℝ

/-- Scripts `calculate_power_from_current` (lines 83-154).  Guard (line 86):
only `if not current_samples: return None` — no minimum-sample threshold. -/
noncomputable def calculate_power_from_current (current_samples : List ℤ) :
    Option ScriptsReading :=
if current_samples = [] then none
else
  some
    { power := |scripts_final_power current_samples|
      current := |scripts_final_current current_samples|
      voltage := ((GRID_VOLTAGE : ℚ) : ℝ)
      pf := scripts_pf current_samples }

/-! ### Payload builder (backups `main`, lines 288-315) -/

/-- Python `round(x, ndigits)`: round half to even at `ndigits` decimal places,
on the exact value. -/
noncomputable def py_round (x : ℝ) (ndigits : ℕ) : ℝ :=
let y : ℝ := x * 10 ^ ndigits
let f : ℤ := ⌊y⌋
let r : ℤ :=
  if y - (f : ℝ) < 1 / 2 then f
  else if (1 / 2 : ℝ) < y - (f : ℝ) then f + 1
  else if Even f then f else f + 1
(r : ℝ) / 10 ^ ndigits

/-- One `"ct_k"` entry of `payload["readings"]["cts"]`. -/
structure CtEntry where
  real_power_w : ℝ
  amps : ℝ
  pf : ℝ

/-- How each channel slot is rendered (the two branches of lines 304-315). -/
noncomputable def ct_entry_of (result : Option Reading) : CtEntry :=
match result with
| some result =>
    { real_power_w := py_round result.power 1
      amps := py_round result.current 3
      pf := py_round result.pf 3 }
| none => { real_power_w := 0.0, amps := 0.0, pf := 0.0 }

/-- Loop body of `for ct_num in range(1, 7)` (lines 302-315). -/
noncomputable def payload_ct_step (ct_results : ℕ → Option Reading)
    (payload : List (String × CtEntry)) (ct_num : ℕ) : List (String × CtEntry) :=
match ct_results ct_num with
| some result =>
    payload ++
      [("ct_" ++ toString ct_num,
        { real_power_w := py_round result.power 1
          amps := py_round result.current 3
          pf := py_round result.pf 3 })]
| none =>
    payload ++ [("ct_" ++ toString ct_num, { real_power_w := 0.0, amps := 0.0, pf := 0.0 })]

/-- The `cts` mapping of the payload: one entry per `ct_num in range(1, 7)`,
where `ct_results.get(ct_num)` is the per-channel calculator result. -/
noncomputable def payload_cts (ct_results : ℕ → Option Reading) : List (String × CtEntry) :=
(List.range' 1 6).foldl (payload_ct_step ct_results) []

/-! ### Upload client (backups `send_to_server`, lines 221-234) -/

/-- Outcome of `requests.post(SERVER_URL, json=data, timeout=10)`: either an HTTP
response with a status code, or one of the exceptions distinguished by the
`except` chain. -/
inductive PostResult where
| response (status_code : ℕ)
| timeout
| connectionError
| otherError (msg : List Char)

/-- `send_to_server`: classify every outcome as data, never re-raising. -/
def send_to_server (r : PostResult) : Bool × List Char :=
match r with
| PostResult.response status_code =>
    if status_code = 200 then (true, "Success".toList)
    else (false, "HTTP ".toList ++ (toString status_code).toList)
| PostResult.timeout => (false, "Timeout".toList)
| PostResult.connectionError => (false, "Connection failed".toList)
| PostResult.otherError e => (false, "Error: ".toList ++ e.take 50)

/-! ### Timestamps (backups `get_utc_timestamp` lines 67-71; scripts `main` line 190) -/

/-- A UTC wall-clock instant as held by a Python `datetime`. -/
structure UtcDateTime where
  year : ℕ
  month : ℕ
  day : ℕ
  hour : ℕ
  minute : ℕ
  second : ℕ
  microsecond : ℕ

/-- Fixed-width, zero-padded decimal rendering (the behaviour of `%Y %m %d %H %M %S %f`
for in-range field values). -/
def padNum : ℕ → ℕ → List Char
| 0, _ => []
| w + 1, n => padNum w (n / 10) ++ [Nat.digitChar (n % 10)]

/-- `strftime('%Y-%m-%dT%H:%M:%S')` — the seconds-precision stem shared by
both formatters. -/
def strftime_sec (t : UtcDateTime) : List Char :=
padNum 4 t.year ++ '-' :: padNum 2 t.month ++ '-' :: padNum 2 t.day ++
  'T' :: padNum 2 t.hour ++ ':' :: padNum 2 t.minute ++ ':' :: padNum 2 t.second

/-- Backups `get_utc_timestamp`:
`utc_time.strftime('%Y-%m-%dT%H:%M:%S.%f')[:-3] + 'Z'`. -/
def get_utc_timestamp (t : UtcDateTime) : List Char :=
let s := strftime_sec t ++ '.' :: padNum 6 t.microsecond
s.take (s.length - 3) ++ ['Z']

/-- Modelled from the spec and the Python standard library: `datetime.isoformat()`
on a `timezone.utc`-aware value, as called at scripts line 190 — six fractional
digits (omitted entirely when `microsecond == 0`) and a `+00:00` offset. -/
def isoformat (t : UtcDateTime) : List Char :=
strftime_sec t ++ (if t.microsecond = 0 then [] else '.' :: padNum 6 t.microsecond) ++
  "+00:00".toList

/-- The `"timestamp"` field of the scripts payload (line 190). -/
def scripts_payload_timestamp (t : UtcDateTime) : List Char := isoformat t

/-- The `"timestamp"` field of the backups payload (lines 289-292). -/
def payload_timestamp (t : UtcDateTime) : List Char := get_utc_timestamp t

/-! ### Concrete inputs used by witnesses and counterexamples -/

/-- 100 identical mid-scale codes: zero variance. -/
def sample_flat : List ℤ := List.replicate 100 512

/-- 50 codes of 514 and 50 of 510: mean 512, variance exactly 4. -/
def sample_step : List ℤ := List.replicate 50 514 ++ List.replicate 50 510

/-- A transfer oracle whose slot-0 transaction fails and the rest return zero bytes. -/
def resp_fault0 : ℕ → Option Byte3 := fun i => if i = 0 then none else some (0, 0, 0)

/-- 2025-07-24 13:30:15.123456 UTC. -/
def dt_micro : UtcDateTime :=
{ year := 2025, month := 7, day := 24, hour := 13, minute := 30, second := 15,
  microsecond := 123456 }

/-! ### Sum-of-squares facts (exact arithmetic) -/

theorem sum_squares_nonneg (l : List ℤ) : 0 ≤ sum_squares l := by
  induction l with
  | nil => simp [sum_squares]
  | cons x xs ih =>
    simp only [sum_squares, List.map_cons, List.sum_cons] at *
    nlinarith [mul_self_nonneg x]

/-- Cauchy–Schwarz for a list of integers: `(Σ x)² ≤ n · Σ x²`. -/
theorem sq_sum_le_length_mul_sum_sq (l : List ℤ) :
    ((sum_values l : ℚ)) ^ 2 ≤ (l.length : ℚ) * ((sum_squares l : ℚ)) := by
  induction l with
  | nil => simp [sum_values, sum_squares]
  | cons x xs ih =>
    have hQ : (0 : ℚ) ≤ ((sum_squares xs : ℚ)) := by exact_mod_cast sum_squares_nonneg xs
    have hn : (0 : ℚ) ≤ (xs.length : ℚ) := by positivity
    have e1 : (sum_values (x :: xs) : ℚ) = (x : ℚ) + (sum_values xs : ℚ) := by
      rw [sum_values, sum_values, List.sum_cons, Int.cast_add]
    have e2 : (sum_squares (x :: xs) : ℚ) = (x : ℚ) * (x : ℚ) + (sum_squares xs : ℚ) := by
      rw [sum_squares, sum_squares, List.map_cons, List.sum_cons, Int.cast_add, Int.cast_mul]
    have e3 : (((x :: xs).length : ℕ) : ℚ) = (xs.length : ℚ) + 1 := by
      rw [List.length_cons]; push_cast; ring
    rw [e1, e2, e3]
    rcases Nat.eq_zero_or_pos xs.length with h0 | hpos
    · have hxs : xs = [] := List.length_eq_zero.mp h0
      subst hxs
      simp only [sum_values, sum_squares, List.sum_nil, List.map_nil, List.length_nil,
        Int.cast_zero, Nat.cast_zero]
      nlinarith [sq_nonneg ((x : ℚ))]
    · have hn' : (0 : ℚ) < (xs.length : ℚ) := by exact_mod_cast hpos
      have h1 := sq_nonneg ((xs.length : ℚ) * (x : ℚ) - (sum_values xs : ℚ))
      have h3 : (0 : ℚ) ≤ (xs.length : ℚ) + 1 := by linarith
      have h4 : (0 : ℚ) ≤ (xs.length : ℚ) * (sum_squares xs : ℚ) - (sum_values xs : ℚ) ^ 2 := by
        linarith [ih]
      nlinarith [h1, mul_nonneg h3 h4, hn']

/-- The argument of the square root is never negative in exact arithmetic:
`mean_square − avg_raw²` is a variance. -/
theorem variance_nonneg (l : List ℤ) : 0 ≤ mean_square l - avg_raw l * avg_raw l := by
  rcases eq_or_ne l [] with h | h
  · subst h; simp [mean_square, avg_raw, sum_values, sum_squares]
  · have hn : (0 : ℚ) < (l.length : ℚ) := by
      exact_mod_cast List.length_pos.mpr h
    rw [mean_square, avg_raw, sub_nonneg, div_mul_div_comm,
      div_le_div_iff₀ (by positivity) hn]
    have cs := sq_sum_le_length_mul_sum_sq l
    nlinarith [cs, hn.le]

/-! ### Scaling and sign helpers -/

theorem current_scaling_pos : (0 : ℚ) < current_scaling := by
  norm_num [current_scaling, vref, board_voltage, ADC_BITS, CT_CALIBRATION,
    DEFAULT_CALIBRATION, volts_per_amp, CT_RATING]

theorem scripts_current_scaling_pos : (0 : ℚ) < scripts_current_scaling := by
  norm_num [scripts_current_scaling, vref, board_voltage, ADC_BITS, CT_CALIBRATION,
    DEFAULT_CALIBRATION, scripts_volts_per_amp]

theorem current_rms_nonneg (l : List ℤ) : 0 ≤ current_rms l :=
  mul_nonneg (Real.sqrt_nonneg _) (by exact_mod_cast current_scaling_pos.le)

theorem scripts_current_rms_nonneg (l : List ℤ) : 0 ≤ scripts_current_rms l :=
  mul_nonneg (Real.sqrt_nonneg _) (by exact_mod_cast scripts_current_scaling_pos.le)

theorem grid_voltage_cast_nonneg : (0 : ℝ) ≤ ((GRID_VOLTAGE : ℚ) : ℝ) := by
  norm_num [GRID_VOLTAGE]

theorem power_factor_cast_nonneg : (0 : ℝ) ≤ ((power_factor : ℚ) : ℝ) := by
  norm_num [power_factor]

theorem power_calculated_nonneg (l : List ℤ) : 0 ≤ power_calculated l :=
  mul_nonneg (mul_nonneg grid_voltage_cast_nonneg (abs_nonneg _)) power_factor_cast_nonneg

theorem scripts_power_calculated_nonneg (l : List ℤ) : 0 ≤ scripts_power_calculated l :=
  mul_nonneg (mul_nonneg grid_voltage_cast_nonneg (abs_nonneg _)) power_factor_cast_nonneg

/-- With `CT_REVERSED = True` and non-negative computed power, the reversal block
takes the `else` branch. -/
theorem final_pair_eq (l : List ℤ) :
    final_pair l = (power_calculated l, -|current_rms l|) := by
  rw [final_pair, ct_reversal, CT_REVERSED]
  simp [not_lt.mpr (power_calculated_nonneg l)]

theorem scripts_final_pair_eq (l : List ℤ) :
    scripts_final_pair l = (scripts_power_calculated l, -|scripts_current_rms l|) := by
  rw [scripts_final_pair, ct_reversal, CT_REVERSED]
  simp [not_lt.mpr (scripts_power_calculated_nonneg l)]

theorem final_current_eq (l : List ℤ) : final_current l = -(current_rms l) := by
  rw [final_current, final_pair_eq, abs_of_nonneg (current_rms_nonneg l)]

theorem scripts_final_current_eq (l : List ℤ) :
    scripts_final_current l = -(scripts_current_rms l) := by
  rw [scripts_final_current, scripts_final_pair_eq,
    abs_of_nonneg (scripts_current_rms_nonneg l)]

/-- Unfolding the calculator once its guard is passed. -/
theorem calculate_power_for_ct_eq (l : List ℤ) (ct_num : ℕ) (h : 100 ≤ l.length) :
    calculate_power_for_ct l ct_num =
      some
        { power := |final_power l|
          current := |final_current l|
          voltage := ((GRID_VOLTAGE : ℚ) : ℝ)
          pf := pf l
          variation := variation l } := by
  rw [calculate_power_for_ct, if_neg]
  push_neg
  refine ⟨?_, h⟩
  intro hnil
  rw [hnil] at h
  simp at h

theorem calculate_power_from_current_eq (l : List ℤ) (h : l ≠ []) :
    calculate_power_from_current l =
      some
        { power := |scripts_final_power l|
          current := |scripts_final_current l|
          voltage := ((GRID_VOLTAGE : ℚ) : ℝ)
          pf := scripts_pf l } := by
  rw [calculate_power_from_current, if_neg h]

/-! ### Sampler helpers -/

/-- The append-if-non-negative fold is a filter of the read results. -/
theorem collect_foldl_eq_filter (f : ℕ → ℤ) :
    ∀ (l : List ℕ) (acc : List ℤ),
      l.foldl (fun ct_list i => if 0 ≤ f i then ct_list ++ [f i] else ct_list) acc =
        acc ++ (l.map f).filter fun r => decide (0 ≤ r) := by
  intro l
  induction l with
  | nil => intro acc; simp
  | cons i rest ih =>
    intro acc
    rw [List.foldl_cons, List.map_cons, List.filter_cons]
    by_cases hi : 0 ≤ f i
    · rw [if_pos hi, ih, decide_eq_true hi]
      simp
    · rw [if_neg hi, ih, decide_eq_false hi]
      simp

theorem collect_ct_samples_eq_filter (resp : ℕ → Option Byte3) (channel : ℤ)
    (num_samples : ℕ) :
    collect_ct_samples resp channel num_samples =
      ((List.range num_samples).map fun i => read_adc (resp i) channel).filter
        fun r => decide (0 ≤ r) := by
  rw [collect_ct_samples]
  simpa using collect_foldl_eq_filter (fun i => read_adc (resp i) channel)
    (List.range num_samples) []

/-- Successful `scripts_read_adc` results on the in-range channel 0 are non-negative. -/
theorem scripts_read_adc_ok_nonneg (resp : Option Byte3) (r : ℤ)
    (h : scripts_read_adc resp CT_CHANNEL = Except.ok r) : 0 ≤ r := by
  cases resp with
  | some adc =>
    simp only [scripts_read_adc, CT_CHANNEL] at h
    rw [if_neg (by norm_num)] at h
    simp only [Except.ok.injEq] at h
    rw [← h]
    positivity
  | none =>
    simp only [scripts_read_adc, CT_CHANNEL] at h
    rw [if_neg (by norm_num)] at h
    cases h

theorem scripts_collect_loop_ok (resp : ℕ → Option Byte3) :
    ∀ (l : List ℕ) (acc out : List ℤ),
      scripts_collect_loop resp l acc = Except.ok out →
      out.length = acc.length + l.length ∧ ∀ x ∈ out, x ∈ acc ∨ 0 ≤ x := by
  intro l
  induction l with
  | nil =>
    intro acc out hout
    simp only [scripts_collect_loop] at hout
    cases hout
    exact ⟨by simp, fun x hx => Or.inl hx⟩
  | cons i rest ih =>
    intro acc out hout
    simp only [scripts_collect_loop] at hout
    cases hr : scripts_read_adc (resp i) CT_CHANNEL with
    | ok r =>
      rw [hr] at hout
      obtain ⟨hlen, hmem⟩ := ih (acc ++ [r]) out hout
      refine ⟨by simpa [Nat.add_assoc, Nat.add_comm 1 rest.length] using hlen, ?_⟩
      intro x hx
      rcases hmem x hx with hxa | hxr
      · rcases List.mem_append.mp hxa with hxa' | hxr'
        · exact Or.inl hxa'
        · right
          rw [List.mem_singleton.mp hxr']
          exact scripts_read_adc_ok_nonneg _ _ hr
      · exact Or.inr hxr
    | error e =>
      rw [hr] at hout
      cases hout

/-! ### Evaluation of the numeric core on the concrete inputs -/

theorem variance_flat :
    mean_square sample_flat - avg_raw sample_flat * avg_raw sample_flat = 0 := by
  norm_num [sample_flat, mean_square, avg_raw, sum_squares, sum_values,
    List.map_replicate, List.sum_replicate, smul_eq_mul]

theorem variance_step :
    mean_square sample_step - avg_raw sample_step * avg_raw sample_step = 4 := by
  norm_num [sample_step, mean_square, avg_raw, sum_squares, sum_values, List.map_append,
    List.sum_append, List.map_replicate, List.sum_replicate, smul_eq_mul,
    List.length_append, List.length_replicate]

theorem current_rms_flat : current_rms sample_flat = 0 := by
  rw [current_rms, variance_flat]
  norm_num

theorem current_rms_step_pos : 0 < current_rms sample_step := by
  rw [current_rms, variance_step]
  have h4 : ((max 0 (4 : ℚ) : ℚ) : ℝ) = 4 := by norm_num
  rw [h4]
  exact mul_pos (Real.sqrt_pos.mpr (by norm_num)) (by exact_mod_cast current_scaling_pos)

theorem power_calculated_flat : power_calculated sample_flat = 0 := by
  rw [power_calculated, current_rms_flat]
  norm_num

theorem final_pair_flat_lt : |(final_pair sample_flat).1| < 1 := by
  have h1 : (final_pair sample_flat).1 = 0 := by
    rw [final_pair_eq, power_calculated_flat]
  rw [h1]
  norm_num

/-! ### Payload builder helpers -/

theorem payload_ct_step_eq (ct_results : ℕ → Option Reading)
    (payload : List (String × CtEntry)) (ct_num : ℕ) :
    payload_ct_step ct_results payload ct_num =
      payload ++ [("ct_" ++ toString ct_num, ct_entry_of (ct_results ct_num))] := by
  cases h : ct_results ct_num <;> simp [payload_ct_step, ct_entry_of, h]

theorem payload_foldl_eq_map (ct_results : ℕ → Option Reading) :
    ∀ (l : List ℕ) (acc : List (String × CtEntry)),
      l.foldl (payload_ct_step ct_results) acc =
        acc ++ l.map fun n => ("ct_" ++ toString n, ct_entry_of (ct_results n)) := by
  intro l
  induction l with
  | nil => intro acc; simp
  | cons n rest ih =>
    intro acc
    rw [List.foldl_cons, payload_ct_step_eq, ih]
    simp

/-! ### Timestamp helpers -/

theorem padNum_length (w : ℕ) : ∀ n, (padNum w n).length = w := by
  induction w with
  | zero => intro n; rfl
  | succ w ih =>
    intro n
    simp only [padNum, List.length_append, ih, List.length_cons, List.length_nil]

theorem padNum_split (w₁ : ℕ) : ∀ (w₂ n : ℕ),
    padNum (w₁ + w₂) n = padNum w₁ (n / 10 ^ w₂) ++ padNum w₂ (n % 10 ^ w₂) := by
  intro w₂
  induction w₂ with
  | zero => intro n; simp [padNum, Nat.div_one]
  | succ w ih =>
    intro n
    rw [Nat.add_succ]
    simp only [padNum]
    rw [ih (n / 10)]
    have d1 : n / 10 / 10 ^ w = n / 10 ^ (w + 1) := by
      rw [Nat.div_div_eq_div_mul, ← pow_succ']
    have d2 : n / 10 % 10 ^ w = n % 10 ^ (w + 1) / 10 := by
      rw [pow_succ']
      exact (Nat.mod_mul_right_div_self n 10 (10 ^ w)).symm
    have d3 : n % 10 = n % 10 ^ (w + 1) % 10 := by
      rw [Nat.mod_mod_of_dvd _ (dvd_pow_self 10 (Nat.succ_ne_zero w))]
    rw [d1, d2, d3, List.append_assoc]

/-- Dropping the last three of the six `%f` digits leaves the three
millisecond digits. -/
theorem get_utc_timestamp_eq (t : UtcDateTime) :
    get_utc_timestamp t =
      (strftime_sec t ++ '.' :: padNum 3 (t.microsecond / 1000)) ++ ['Z'] := by
  have hsplit : padNum 6 t.microsecond =
      padNum 3 (t.microsecond / 1000) ++ padNum 3 (t.microsecond % 1000) :=
    padNum_split 3 3 t.microsecond
  have hre : strftime_sec t ++ '.' :: padNum 6 t.microsecond =
      (strftime_sec t ++ '.' :: padNum 3 (t.microsecond / 1000)) ++
        padNum 3 (t.microsecond % 1000) := by
    rw [hsplit]
    simp
  simp only [get_utc_timestamp, hre]
  have hlen : ((strftime_sec t ++ '.' :: padNum 3 (t.microsecond / 1000)) ++
      padNum 3 (t.microsecond % 1000)).length =
      (strftime_sec t ++ '.' :: padNum 3 (t.microsecond / 1000)).length + 3 := by
    rw [List.length_append, padNum_length]
  rw [hlen, Nat.add_sub_cancel, List.take_left]

/-! ### Claim theorems -/

/-- C1: for every sample sequence accepted by the power calculator, RMS current
is `sqrt(max(0, mean_square − mean²)) × current_scaling`; the square-root
argument is never negative (in exact arithmetic `mean_square − mean²` itself is
already non-negative, so even the guard-less single-channel variant computes the
same guarded value and no domain error can occur). -/
theorem rms_dc_removal_guard (l : List ℤ) (h : 100 ≤ l.length) :
    current_rms l =
        Real.sqrt ((max 0 (mean_square l - avg_raw l * avg_raw l) : ℚ)) *
          ((current_scaling : ℚ) : ℝ)
    ∧ 0 ≤ mean_square l - avg_raw l * avg_raw l
    ∧ (0 : ℝ) ≤ ((max 0 (mean_square l - avg_raw l * avg_raw l) : ℚ) : ℝ)
    ∧ scripts_current_rms l =
        Real.sqrt ((max 0 (mean_square l - avg_raw l * avg_raw l) : ℚ)) *
          ((scripts_current_scaling : ℚ) : ℝ) := by
  refine ⟨rfl, variance_nonneg l, ?_, ?_⟩
  · exact_mod_cast le_max_left 0 (mean_square l - avg_raw l * avg_raw l)
  · rw [scripts_current_rms, max_eq_right (variance_nonneg l)]

theorem rms_dc_removal_guard_witness :
    100 ≤ sample_flat.length ∧
      0 ≤ mean_square sample_flat - avg_raw sample_flat * avg_raw sample_flat :=
  ⟨by decide, (rms_dc_removal_guard sample_flat (by decide)).2.1⟩

/-- C2: the single-channel variant's calculator accepts a 1-sample sequence —
far below the documented 100-sample minimum — and returns a computed reading
instead of the absent marker. -/
theorem short_sequence_still_computed :
    ([(512 : ℤ)].length < 100) ∧ (calculate_power_from_current [(512 : ℤ)]).isSome = true := by
  constructor
  · decide
  · rw [calculate_power_from_current_eq [(512 : ℤ)] (by decide)]
    rfl

/-- C3 (amended): both readers return the −1 sentinel for a channel outside
`[0, 7]`, and an in-range successful read is bounded by 0..1023; the six-channel
reader also converts a transfer fault into the −1 sentinel, but the
single-channel reader propagates a transfer fault as an exception. -/
theorem read_adc_fault_contract (resp : Option Byte3) (channel : ℤ) :
    ((channel < 0 ∨ 7 < channel) →
        read_adc resp channel = -1 ∧ scripts_read_adc resp channel = Except.ok (-1))
    ∧ (0 ≤ channel → channel ≤ 7 →
        (read_adc resp channel = -1 ∨
            (0 ≤ read_adc resp channel ∧ read_adc resp channel ≤ 1023))
        ∧ read_adc none channel = -1
        ∧ scripts_read_adc none channel = Except.error ()
        ∧ ∀ adc : Byte3,
            scripts_read_adc (some adc) channel =
              Except.ok (read_adc (some adc) channel)) := by
  constructor
  · intro hout
    constructor
    · simp only [read_adc, if_pos hout]
    · simp only [scripts_read_adc, if_pos hout]
  · intro h0 h7
    have hn : ¬(channel < 0 ∨ 7 < channel) := by push_neg; exact ⟨h0, h7⟩
    refine ⟨?_, ?_, ?_, ?_⟩
    · cases resp with
      | none => left; simp only [read_adc, if_neg hn]
      | some adc =>
        right
        simp only [read_adc, if_neg hn]
        constructor
        · exact Int.natCast_nonneg _
        · have h1 : adc.2.1.val &&& 3 ≤ 3 := Nat.and_le_right
          have h2 : adc.2.2.val ≤ 255 := Nat.le_of_lt_succ adc.2.2.isLt
          have hb : (adc.2.1.val &&& 3) <<< 8 + adc.2.2.val ≤ 1023 := by
            rw [Nat.shiftLeft_eq]
            omega
          exact_mod_cast hb
    · simp only [read_adc, if_neg hn]
    · simp only [scripts_read_adc, if_neg hn]
    · intro adc
      simp only [scripts_read_adc, read_adc, if_neg hn]

theorem read_adc_fault_contract_witness :
    read_adc none 8 = -1 ∧ scripts_read_adc none 8 = Except.ok (-1) ∧
      (read_adc (some (0, 0, 0)) 0 = -1 ∨
        (0 ≤ read_adc (some (0, 0, 0)) 0 ∧ read_adc (some (0, 0, 0)) 0 ≤ 1023)) :=
  ⟨((read_adc_fault_contract none 8).1 (by norm_num)).1,
   ((read_adc_fault_contract none 8).1 (by norm_num)).2,
   ((read_adc_fault_contract (some (0, 0, 0)) 0).2 (by norm_num) (by norm_num)).1⟩

/-- C3 counterexample: on a transfer fault the single-channel `read_adc` raises
(an `Except.error` escapes its boundary) instead of reporting the −1 sentinel. -/
theorem scripts_read_adc_raises :
    scripts_read_adc none 0 = Except.error () ∧
      scripts_read_adc none 0 ≠ Except.ok (-1) :=
  ⟨rfl, fun h => Except.noConfusion h⟩

/-- C4: a sampling pass keeps exactly the non-negative read results, in order:
faulted reads (the −1 sentinel) are dropped, never appended and never
zero-filled, so each channel's sequence has length ≤ `num_samples`, with
equality iff no read of that channel faulted; the single-channel variant's pass
either aborts on a fault or returns `num_samples` non-negative readings. -/
theorem collect_drops_faulted (resp : ℕ → Option Byte3) (channel : ℤ) (num_samples : ℕ) :
    collect_ct_samples resp channel num_samples =
        ((List.range num_samples).map fun i => read_adc (resp i) channel).filter
          (fun r => decide (0 ≤ r))
    ∧ (∀ x ∈ collect_ct_samples resp channel num_samples, 0 ≤ x)
    ∧ (collect_ct_samples resp channel num_samples).length ≤ num_samples
    ∧ ((collect_ct_samples resp channel num_samples).length = num_samples ↔
        ∀ i < num_samples, 0 ≤ read_adc (resp i) channel)
    ∧ (∀ out, scripts_collect_current_samples resp num_samples = Except.ok out →
        out.length = num_samples ∧ ∀ x ∈ out, 0 ≤ x) := by
  refine ⟨collect_ct_samples_eq_filter resp channel num_samples, ?_, ?_, ?_, ?_⟩
  · intro x hx
    rw [collect_ct_samples_eq_filter] at hx
    exact of_decide_eq_true (List.mem_filter.mp hx).2
  · rw [collect_ct_samples_eq_filter]
    calc (((List.range num_samples).map fun i => read_adc (resp i) channel).filter
            (fun r => decide (0 ≤ r))).length
        ≤ (((List.range num_samples).map fun i => read_adc (resp i) channel)).length :=
          List.length_filter_le _ _
      _ = num_samples := by simp
  · rw [collect_ct_samples_eq_filter]
    have hL : (((List.range num_samples).map fun i => read_adc (resp i) channel)).length =
        num_samples := by simp
    constructor
    · intro hlen i hi
      have key : ((((List.range num_samples).map fun i => read_adc (resp i) channel)).filter
          (fun r => decide (0 ≤ r))).length =
          (((List.range num_samples).map fun i => read_adc (resp i) channel)).length := by
        rw [hL]
        exact hlen
      exact of_decide_eq_true
        (List.filter_length_eq_length.mp key _
          (List.mem_map.mpr ⟨i, List.mem_range.mpr hi, rfl⟩))
    · intro hall
      have hokall : ∀ a ∈ (List.range num_samples).map fun i => read_adc (resp i) channel,
          (fun r => decide (0 ≤ r)) a = true := by
        intro a ha
        obtain ⟨i, hi, rfl⟩ := List.mem_map.mp ha
        exact decide_eq_true (hall i (List.mem_range.mp hi))
      rw [List.filter_length_eq_length.mpr hokall, hL]
  · intro out hout
    obtain ⟨hlen, hmem⟩ :=
      scripts_collect_loop_ok resp (List.range num_samples) [] out hout
    refine ⟨by simpa using hlen, ?_⟩
    intro x hx
    rcases hmem x hx with hnil | hge
    · cases hnil
    · exact hge

theorem collect_drops_faulted_witness :
    (∀ x ∈ collect_ct_samples resp_fault0 0 2, 0 ≤ x)
    ∧ (collect_ct_samples resp_fault0 0 2).length ≤ 2
    ∧ ¬((collect_ct_samples resp_fault0 0 2).length = 2) := by
  refine ⟨(collect_drops_faulted resp_fault0 0 2).2.1,
    (collect_drops_faulted resp_fault0 0 2).2.2.1, ?_⟩
  intro hlen
  have hall := ((collect_drops_faulted resp_fault0 0 2).2.2.2.1).mp hlen 0 (by norm_num)
  revert hall
  decide

/-- C5 (amended): with the reversed flag set, the correction block gives
power `|naive|` in both branches — keeping the current's computed sign in the
negative-power branch and replacing it by `−|current|` otherwise — but the
returned reading then reports the absolute values of both the (floored) power
and the current, so the negated sign is not exposed at the reporting boundary. -/
theorem ct_reversal_branch_contract (p c : ℝ) (l : List ℤ) (ct_num : ℕ)
    (h : 100 ≤ l.length) :
    (p < 0 → ct_reversal true p c = (|p|, c))
    ∧ (0 ≤ p → ct_reversal true p c = (p, -|c|) ∧ (ct_reversal true p c).1 = |p|)
    ∧ (calculate_power_for_ct l ct_num).map Reading.power = some |final_power l|
    ∧ (calculate_power_for_ct l ct_num).map Reading.current = some |final_current l| := by
  refine ⟨?_, ?_, ?_, ?_⟩
  · intro hp
    rw [ct_reversal]
    simp [hp]
  · intro hp
    constructor
    · rw [ct_reversal]
      simp [not_lt.mpr hp]
    · rw [ct_reversal]
      simp [not_lt.mpr hp, abs_of_nonneg hp]
  · rw [calculate_power_for_ct_eq l ct_num h]
    rfl
  · rw [calculate_power_for_ct_eq l ct_num h]
    rfl

theorem ct_reversal_branch_contract_witness :
    ((-1 : ℝ) < 0 ∧ ct_reversal true (-1) 2 = (|(-1 : ℝ)|, 2))
    ∧ ((0 : ℝ) ≤ 2 ∧ ct_reversal true 2 (-3) = (2, -|(-3 : ℝ)|))
    ∧ 100 ≤ sample_flat.length
    ∧ (calculate_power_for_ct sample_flat 1).map Reading.power =
        some |final_power sample_flat| :=
  ⟨⟨by norm_num, (ct_reversal_branch_contract (-1) 2 sample_flat 1 (by decide)).1 (by norm_num)⟩,
   ⟨by norm_num,
    ((ct_reversal_branch_contract 2 (-3) sample_flat 1 (by decide)).2.1 (by norm_num)).1⟩,
   by decide,
   (ct_reversal_branch_contract (-1) 2 sample_flat 1 (by decide)).2.2.1⟩

/-- C5 counterexample: on a concrete 100-sample input with positive RMS, the
corrected (internal) current is negative, but the reading returned at the
reporting boundary carries the positive magnitude — the negated sign is not
exposed, contradicting the claim's "the resulting reading exposes these
values". -/
theorem reversed_sign_not_exposed :
    final_current sample_step = -(current_rms sample_step)
    ∧ 0 < current_rms sample_step
    ∧ (calculate_power_for_ct sample_step 1).map Reading.current =
        some (current_rms sample_step)
    ∧ (calculate_power_for_ct sample_step 1).map Reading.current ≠
        some (final_current sample_step) := by
  have hlen : 100 ≤ sample_step.length := by decide
  have hmap : (calculate_power_for_ct sample_step 1).map Reading.current =
      some |final_current sample_step| := by
    rw [calculate_power_for_ct_eq sample_step 1 hlen]
    rfl
  have habs : |final_current sample_step| = current_rms sample_step := by
    rw [final_current_eq, abs_neg, abs_of_nonneg (current_rms_nonneg sample_step)]
  refine ⟨final_current_eq sample_step, current_rms_step_pos, ?_, ?_⟩
  · rw [hmap, habs]
  · rw [hmap, habs, final_current_eq]
    intro hcontra
    have h0 : current_rms sample_step = -(current_rms sample_step) :=
      Option.some_inj.mp hcontra
    have : current_rms sample_step = 0 := by linarith
    exact absurd this (ne_of_gt current_rms_step_pos)

/-- C6: power in the returned reading: strictly below the 1 W noise floor it is
exactly 0.0, at or above 1 W it is the corrected power unchanged (both
variants). -/
theorem noise_floor_reporting (l : List ℤ) (ct_num : ℕ) (h : 100 ≤ l.length) :
    (|(final_pair l).1| < 1 →
        (calculate_power_for_ct l ct_num).map Reading.power = some 0)
    ∧ (1 ≤ |(final_pair l).1| →
        (calculate_power_for_ct l ct_num).map Reading.power = some ((final_pair l).1))
    ∧ (|(scripts_final_pair l).1| < 1 →
        (calculate_power_from_current l).map ScriptsReading.power = some 0)
    ∧ (1 ≤ |(scripts_final_pair l).1| →
        (calculate_power_from_current l).map ScriptsReading.power =
          some ((scripts_final_pair l).1)) := by
  have hnil : l ≠ [] := by
    intro hl
    rw [hl] at h
    simp at h
  have hmap : (calculate_power_for_ct l ct_num).map Reading.power =
      some |final_power l| := by
    rw [calculate_power_for_ct_eq l ct_num h]
    rfl
  have hmap' : (calculate_power_from_current l).map ScriptsReading.power =
      some |scripts_final_power l| := by
    rw [calculate_power_from_current_eq l hnil]
    rfl
  have h10 : (1.0 : ℝ) = 1 := by norm_num
  refine ⟨?_, ?_, ?_, ?_⟩
  · intro hlt
    rw [hmap, final_power, h10, if_pos hlt]
    norm_num
  · intro hge
    rw [hmap, final_power, h10, if_neg (not_lt.mpr hge)]
    have hfp : 0 ≤ (final_pair l).1 := by
      rw [final_pair_eq]
      exact power_calculated_nonneg l
    rw [abs_of_nonneg hfp]
  · intro hlt
    rw [hmap', scripts_final_power, h10, if_pos hlt]
    norm_num
  · intro hge
    rw [hmap', scripts_final_power, h10, if_neg (not_lt.mpr hge)]
    have hfp : 0 ≤ (scripts_final_pair l).1 := by
      rw [scripts_final_pair_eq]
      exact scripts_power_calculated_nonneg l
    rw [abs_of_nonneg hfp]

theorem noise_floor_reporting_witness :
    100 ≤ sample_flat.length ∧ |(final_pair sample_flat).1| < 1
    ∧ (calculate_power_for_ct sample_flat 1).map Reading.power = some 0 :=
  ⟨by decide, final_pair_flat_lt,
   (noise_floor_reporting sample_flat 1 (by decide)).1 final_pair_flat_lt⟩

/-- C7: for every per-cycle result map, the payload carries exactly six entries
`ct_1`..`ct_6` in order; an absent channel is rendered as the all-zero entry,
never omitted, and a present reading is rounded here — power to one decimal,
current and power factor to three decimals. -/
theorem payload_cts_complete (ct_results : ℕ → Option Reading) :
    payload_cts ct_results =
        [("ct_1", ct_entry_of (ct_results 1)), ("ct_2", ct_entry_of (ct_results 2)),
         ("ct_3", ct_entry_of (ct_results 3)), ("ct_4", ct_entry_of (ct_results 4)),
         ("ct_5", ct_entry_of (ct_results 5)), ("ct_6", ct_entry_of (ct_results 6))]
    ∧ (payload_cts ct_results).length = 6
    ∧ (payload_cts ct_results).map Prod.fst =
        ["ct_1", "ct_2", "ct_3", "ct_4", "ct_5", "ct_6"]
    ∧ ct_entry_of none = { real_power_w := 0.0, amps := 0.0, pf := 0.0 }
    ∧ ∀ result : Reading,
        ct_entry_of (some result) =
          { real_power_w := py_round result.power 1
            amps := py_round result.current 3
            pf := py_round result.pf 3 } := by
  have hmain : payload_cts ct_results =
      [("ct_1", ct_entry_of (ct_results 1)), ("ct_2", ct_entry_of (ct_results 2)),
       ("ct_3", ct_entry_of (ct_results 3)), ("ct_4", ct_entry_of (ct_results 4)),
       ("ct_5", ct_entry_of (ct_results 5)), ("ct_6", ct_entry_of (ct_results 6))] := by
    rw [payload_cts, show List.range' 1 6 = [1, 2, 3, 4, 5, 6] from rfl,
      payload_foldl_eq_map]
    rfl
  refine ⟨hmain, ?_, ?_, rfl, fun result => rfl⟩
  · rw [hmain]
    rfl
  · rw [hmain]
    rfl

/-- C8: every upload outcome is classified as data: status 200 is the only
success; any other status carries `HTTP <code>`; a timeout is reported as
`Timeout` (never the generic `Error:` form); a connection refusal as
`Connection failed`; any other exception as `Error:` plus a diagnostic
truncated to 50 characters. -/
theorem send_to_server_classification (r : PostResult) :
    ((send_to_server r).1 = true ↔ r = PostResult.response 200)
    ∧ (∀ c, c ≠ 200 →
        send_to_server (PostResult.response c) =
          (false, "HTTP ".toList ++ (toString c).toList))
    ∧ send_to_server PostResult.timeout = (false, "Timeout".toList)
    ∧ send_to_server PostResult.connectionError = (false, "Connection failed".toList)
    ∧ (∀ e, send_to_server (PostResult.otherError e) =
          (false, "Error: ".toList ++ e.take 50)
        ∧ (e.take 50).length ≤ 50)
    ∧ (∀ e, (send_to_server PostResult.timeout).2 ≠
        (send_to_server (PostResult.otherError e)).2) := by
  refine ⟨?_, ?_, rfl, rfl, ?_, ?_⟩
  · cases r with
    | response c =>
      by_cases hc : c = 200
      · subst hc
        simp [send_to_server]
      · simp [send_to_server, hc]
    | timeout => simp [send_to_server]
    | connectionError => simp [send_to_server]
    | otherError e => simp [send_to_server]
  · intro c hc
    simp [send_to_server, hc]
  · intro e
    refine ⟨rfl, ?_⟩
    rw [List.length_take]
    exact min_le_left _ _
  · intro e h
    have hhead := congrArg List.headI h
    exact absurd (show ('T' : Char) = 'E' from hhead) (by decide)

theorem send_to_server_classification_witness :
    send_to_server (PostResult.response 500) =
        (false, "HTTP ".toList ++ (toString 500).toList)
    ∧ (send_to_server (PostResult.response 200)).1 = true :=
  ⟨(send_to_server_classification (PostResult.response 500)).2.1 500 (by norm_num),
   (send_to_server_classification (PostResult.response 200)).1.mpr rfl⟩

/-- C9 (amended): the six-channel monitor's payload timestamp is the UTC
second-precision stem, a dot, the three millisecond digits (microseconds
beyond the millisecond are dropped), and the `'Z'` suffix; the single-channel
monitor instead uploads full-microsecond `isoformat()` with a `+00:00` offset. -/
theorem get_utc_timestamp_millisecond_z (t : UtcDateTime) :
    payload_timestamp t =
        (strftime_sec t ++ '.' :: padNum 3 (t.microsecond / 1000)) ++ ['Z']
    ∧ (payload_timestamp t).getLast? = some 'Z'
    ∧ scripts_payload_timestamp t =
        strftime_sec t ++
          (if t.microsecond = 0 then [] else '.' :: padNum 6 t.microsecond) ++
          "+00:00".toList := by
  refine ⟨get_utc_timestamp_eq t, ?_, rfl⟩
  rw [payload_timestamp, get_utc_timestamp_eq t]
  exact List.getLast?_concat _

/-- C9 counterexample: a payload timestamp produced by the single-channel
monitor at a concrete instant carries six fractional digits and the `+00:00`
offset — microsecond precision and no `'Z'` marker. -/
theorem scripts_timestamp_not_millisecond_z :
    scripts_payload_timestamp dt_micro = "2025-07-24T13:30:15.123456+00:00".toList
    ∧ (scripts_payload_timestamp dt_micro).getLast? ≠ some 'Z' := by
  constructor
  · decide
  · decide

/-- C10: the computed power is `grid_voltage × |current_rms| × 0.90`, hence
non-negative on every input, so with the reversed flag set the negative-power
branch of the correction is unreachable: the correction always keeps the power
and replaces the current by its negation (both variants). -/
theorem power_nonneg_reversal_fixed (l : List ℤ) :
    power_calculated l =
        ((GRID_VOLTAGE : ℚ) : ℝ) * |current_rms l| * ((power_factor : ℚ) : ℝ)
    ∧ 0 ≤ power_calculated l
    ∧ final_pair l = (power_calculated l, -|current_rms l|)
    ∧ final_current l = -(current_rms l)
    ∧ 0 ≤ scripts_power_calculated l
    ∧ scripts_final_pair l = (scripts_power_calculated l, -|scripts_current_rms l|)
    ∧ scripts_final_current l = -(scripts_current_rms l) :=
  ⟨rfl, power_calculated_nonneg l, final_pair_eq l, final_current_eq l,
   scripts_power_calculated_nonneg l, scripts_final_pair_eq l, scripts_final_current_eq l⟩
